import Mathlib

/-!
Verification of `public/app/features/alerting/unified/components/contact-points/utils.ts`
(Grafana contact-point enrichment utilities).

The TypeScript source is shallowly embedded: JS objects become Lean structures,
optional / possibly-`undefined` fields become `Option`, JS string truthiness is made
explicit (`truthy`), fallible lookups return `Option`.  External collaborators that the
file imports (`computeInheritedTree`, `extractReceivers`, `getOnCallMetadata`, the
locale comparator behind `String.prototype.localeCompare`, and the process-wide feature
flag read) are passed as parameters, so every theorem below holds for all of them.
-/

/-- JS string truthiness for an optional string field: `undefined` and `""` are falsy. -/
def truthy : Option String → Bool
  | none => false
  | some s => !(s == "")

/-- Matcher triple `(label, operator, value)` as stored in `Route.object_matchers`. -/
structure ObjectMatcher where
  label : String
  op : String
  value : String
deriving DecidableEq, Repr

/-- The reserved matcher label used to recognise auto-generated policies
(`AUTOGENERATED_RECEIVER_POLICY_MATCHER_KEY` in the source). -/
def AUTOGENERATED_RECEIVER_POLICY_MATCHER_KEY : String := "__grafana_receiver__"

/-- Modelled from the spec: `MatcherOperator.equal`, the "equals" matcher operator, is
imported from the alertmanager type definitions (not part of this file); its value is
the string `"="`. -/
def MatcherOperator.equal : String := "="

/-- A notification-policy tree node (`Route`): optional receiver name, optional matcher
list, optional ordered list of child routes. -/
inductive Route where
  | mk (receiver : Option String) (object_matchers : Option (List ObjectMatcher))
      (routes : Option (List Route))

/-- Field accessor for `Route.receiver`. -/
def Route.receiver : Route → Option String
  | .mk r _ _ => r

/-- Field accessor for `Route.object_matchers`. -/
def Route.object_matchers : Route → Option (List ObjectMatcher)
  | .mk _ m _ => m

/-- Field accessor for `Route.routes`. -/
def Route.routes : Route → Option (List Route)
  | .mk _ _ rs => rs

/-- The empty JS object `{}` used as the default route in
`alertmanagerConfiguration?.alertmanager_config?.route ?? {}`. -/
def emptyRoute : Route := .mk none none none

/--
`isAutoGeneratedPolicy` from the source.  The process-wide feature flag read
`config.featureToggles.alertingSimplifiedRouting ?? false` is passed in as the
`alertingSimplifiedRouting` parameter (dependency injection, as the spec suggests).
-/
def isAutoGeneratedPolicy (alertingSimplifiedRouting : Bool) (route : Route) : Bool :=
  if !alertingSimplifiedRouting then
    false
  else
    match route.object_matchers with
    | none => false
    | some ms =>
      ms.any fun objectMatcher =>
        objectMatcher.label == AUTOGENERATED_RECEIVER_POLICY_MATCHER_KEY &&
          objectMatcher.op == MatcherOperator.equal

/-- The nested `route : { type : ... }` object inside a `RouteReference`. -/
structure RouteInfo where
  type : String
deriving DecidableEq, Repr

/-- `RouteReference`: `{ receiver, route: { type: 'auto-generated' | 'normal' } }`. -/
structure RouteReference where
  receiver : String
  route : RouteInfo
deriving DecidableEq, Repr

/-- Size of a member of the (optional) child list is smaller than the parent route. -/
theorem sizeOf_lt_of_mem_routes {c route : Route} (h : c ∈ route.routes.getD []) :
    sizeOf c < sizeOf route := by
  cases route with
  | mk receiver oms routes =>
    cases routes with
    | none => simp [Route.routes] at h
    | some rs =>
      have h2 : sizeOf c < sizeOf rs := List.sizeOf_lt_of_mem (by simpa [Route.routes] using h)
      simp only [Route.mk.sizeOf_spec, Option.some.sizeOf_spec]
      omega

/-- The (optional) child list of a route is smaller than the route itself. -/
theorem sizeOf_routes_getD_lt (route : Route) : sizeOf (route.routes.getD []) < sizeOf route := by
  cases route with
  | mk receiver oms routes =>
    cases routes with
    | none =>
      simp only [Route.routes, Option.getD_none, Route.mk.sizeOf_spec, List.nil.sizeOf_spec,
        Option.none.sizeOf_spec]
      omega
    | some rs =>
      simp only [Route.routes, Option.getD_some, Route.mk.sizeOf_spec, Option.some.sizeOf_spec]
      omega

mutual

/--
`getUsedContactPoints` from the source: pre-order collection of route references for
every node with a truthy `receiver`.  `route.routes?.flatMap(...) ?? []` is modelled by
recursing over `route.routes.getD []`.
-/
def getUsedContactPoints (flag : Bool) (route : Route) : List RouteReference :=
  let childrenContactPoints := getUsedContactPointsList flag (route.routes.getD [])
  if truthy route.receiver then
    { receiver := route.receiver.getD "",
      route := { type := if isAutoGeneratedPolicy flag route then "auto-generated" else "normal" } }
      :: childrenContactPoints
  else
    childrenContactPoints
termination_by sizeOf route
decreasing_by exact sizeOf_routes_getD_lt route

/-- The `flatMap` over a child list inside `getUsedContactPoints`. -/
def getUsedContactPointsList (flag : Bool) (routes : List Route) : List RouteReference :=
  match routes with
  | [] => []
  | r :: rs => getUsedContactPoints flag r ++ getUsedContactPointsList flag rs
termination_by sizeOf routes

end

mutual

/-- Spec-side definition: the pre-order listing of the nodes of a policy tree
(a node before its children, children visited left-to-right). -/
def preorderNodes (route : Route) : List Route :=
  route :: preorderNodesList (route.routes.getD [])
termination_by sizeOf route
decreasing_by exact sizeOf_routes_getD_lt route

/-- Pre-order listing of a forest, left-to-right. -/
def preorderNodesList (routes : List Route) : List Route :=
  match routes with
  | [] => []
  | r :: rs => preorderNodes r ++ preorderNodesList rs
termination_by sizeOf routes

end

/-- Spec-side definition: the single route reference contributed by one receiver-bearing
node — its receiver name together with its classification. -/
def specRouteReference (flag : Bool) (r : Route) : RouteReference :=
  { receiver := r.receiver.getD "",
    route := { type := if isAutoGeneratedPolicy flag r then "auto-generated" else "normal" } }

/-- Strong induction over routes via the child list. -/
theorem route_strongInduction {P : Route → Prop}
    (ih : ∀ route : Route, (∀ c ∈ route.routes.getD [], P c) → P route) :
    ∀ route, P route
  | route => ih route (fun c _ => route_strongInduction ih c)
termination_by route => sizeOf route
decreasing_by exact sizeOf_lt_of_mem_routes (by assumption)

/-- The forest-level collector agrees with the spec-side pre-order description whenever
the node-level collector does so on every tree of the forest. -/
theorem getUsedContactPointsList_eq (flag : Bool) (rs : List Route)
    (ih : ∀ r ∈ rs, getUsedContactPoints flag r =
      ((preorderNodes r).filter (fun n => truthy n.receiver)).map (specRouteReference flag)) :
    getUsedContactPointsList flag rs =
      ((preorderNodesList rs).filter (fun n => truthy n.receiver)).map (specRouteReference flag) := by
  induction rs with
  | nil => simp [getUsedContactPointsList, preorderNodesList]
  | cons r rs ihl =>
    simp only [getUsedContactPointsList, preorderNodesList, List.filter_append, List.map_append]
    rw [ih r (by simp), ihl (fun x hx => ih x (by simp [hx]))]

/-- `getUsedContactPoints` equals the spec-side pre-order filter/map description. -/
theorem getUsedContactPoints_eq_spec (flag : Bool) (t : Route) :
    getUsedContactPoints flag t =
      ((preorderNodes t).filter (fun n => truthy n.receiver)).map (specRouteReference flag) := by
  induction t using route_strongInduction with
  | ih route ih =>
    simp only [getUsedContactPoints, preorderNodes, List.filter_cons]
    rw [getUsedContactPointsList_eq flag _ ih]
    by_cases h : truthy route.receiver = true
    · simp [h, specRouteReference]
    · simp [h]

/-- C1: `getUsedContactPoints` returns exactly one route reference per node with a
non-empty receiver, in pre-order (node before its children, children left-to-right),
with no deduplication; hence its length is the number of receiver-bearing nodes, and a
tree without receiver-bearing nodes yields `[]`. -/
theorem getUsedContactPoints_preorder (flag : Bool) (t : Route) :
    getUsedContactPoints flag t =
      ((preorderNodes t).filter (fun n => truthy n.receiver)).map (specRouteReference flag) ∧
    (getUsedContactPoints flag t).length =
      (preorderNodes t).countP (fun n => truthy n.receiver) := by
  refine ⟨getUsedContactPoints_eq_spec flag t, ?_⟩
  rw [getUsedContactPoints_eq_spec flag t, List.length_map, List.countP_eq_length_filter]

/-- C4: `isAutoGeneratedPolicy` is true iff the feature flag is enabled, a matcher list
is present, and some matcher has the reserved label `__grafana_receiver__` and the
"equals" operator; in particular it is false whenever the flag is disabled. -/
theorem isAutoGeneratedPolicy_iff (flag : Bool) (route : Route) :
    isAutoGeneratedPolicy flag route = true ↔
      flag = true ∧ ∃ ms, route.object_matchers = some ms ∧
        ∃ m ∈ ms, m.label = "__grafana_receiver__" ∧ m.op = MatcherOperator.equal := by
  cases flag with
  | false => simp [isAutoGeneratedPolicy]
  | true =>
    cases h : route.object_matchers with
    | none => simp [isAutoGeneratedPolicy, h]
    | some ms =>
      simp [isAutoGeneratedPolicy, h, List.any_eq_true,
        AUTOGENERATED_RECEIVER_POLICY_MATCHER_KEY, and_assoc]

/-- The whitespace class removed by JS `String.prototype.trim` / lodash `trim`
(restricted to the ASCII whitespace characters). -/
def isJsWhitespace (c : Char) : Bool :=
  c = ' ' || c = '\t' || c = '\n' || c = '\r' || c = '\x0b' || c = '\x0c'

/-- JS `String.prototype.trim`: drop leading and trailing whitespace. -/
def jsTrim (s : String) : String :=
  String.mk (((s.data.dropWhile isJsWhitespace).reverse.dropWhile isJsWhitespace).reverse)

/-- State of the splitter for `/,|;|\n+/g`: tokens already emitted, characters of the
current token, and whether we are inside a run of newlines (so that further newlines
extend the same separator match instead of producing empty tokens). -/
structure SplitState where
  done : List String
  acc : List Char
  inNewlineRun : Bool
deriving DecidableEq, Repr

/-- One step of JS `String.prototype.split(/,|;|\n+/g)`: `,` and `;` each end a token;
a maximal run of `\n` ends a single token. -/
def splitEmailsStep (st : SplitState) (c : Char) : SplitState :=
  if c = ',' || c = ';' then
    { done := st.done ++ [String.mk st.acc], acc := [], inNewlineRun := false }
  else if c = '\n' then
    if st.inNewlineRun then
      { st with inNewlineRun := true }
    else
      { done := st.done ++ [String.mk st.acc], acc := [], inNewlineRun := true }
  else
    { done := st.done, acc := st.acc ++ [c], inNewlineRun := false }

/-- JS `addresses.split(/,|;|\n+/g)` (the `SUPPORTED_SEPARATORS` regex of the source). -/
def splitEmails (s : String) : List String :=
  let st := s.data.foldl splitEmailsStep { done := [], acc := [], inNewlineRun := false }
  st.done ++ [String.mk st.acc]

/-- `summarizeEmailAddresses` from the source: split on the supported separators, trim
each address, show the first `MAX_ADDRESSES_SHOWN = 3`, and append `"+{n} more"` when
lodash `difference(emails, summary)` (all occurrences of values in `summary` removed)
is non-empty. -/
def summarizeEmailAddresses (addresses : String) : String :=
  let emails := (splitEmails (jsTrim addresses)).map jsTrim
  let summary := emails.take 3
  let rest := emails.filter (fun e => !(summary.contains e))
  let withMore :=
    if rest.length = 0 then summary
    else summary ++ ["+" ++ toString rest.length ++ " more"]
  String.intercalate ", " withMore

/-- Spec-side definition of the email summary, following the claim: show at most the
first 3 parsed (trimmed) addresses in order, joined by `", "`; if any parsed address
remains outside the first 3 by value, append `"+{N} more"` where `N` counts every
parsed occurrence whose value is not among the first 3. -/
def specSummarizeEmailAddresses (addresses : String) : String :=
  let parsed := (splitEmails (jsTrim addresses)).map jsTrim
  let shown := parsed.take 3
  let n := parsed.countP (fun e => !(shown.contains e))
  if n = 0 then String.intercalate ", " shown
  else String.intercalate ", " (shown ++ ["+" ++ toString n ++ " more"])

/-- C3: `summarizeEmailAddresses` shows at most the first 3 parsed addresses, appends
`"+{N} more"` with `N` the count of parsed occurrences whose value is not among the
first 3 (every occurrence of a shown value is excluded from the count), and appends no
suffix when nothing remains; the spec's four-address example evaluates as stated. -/
theorem summarizeEmailAddresses_spec :
    (∀ s, summarizeEmailAddresses s = specSummarizeEmailAddresses s) ∧
      summarizeEmailAddresses "foo+1@bar.com, foo+2@bar.com, foo+3@bar.com, foo+4@bar.com" =
        "foo+1@bar.com, foo+2@bar.com, foo+3@bar.com, +1 more" := by
  constructor
  · intro s
    simp only [summarizeEmailAddresses, specSummarizeEmailAddresses,
      List.countP_eq_length_filter]
    split <;> simp_all
  · rfl

/-- The settings fields of a receiver config that this file reads.  JS settings are an
open string-keyed map; a missing key reads as `undefined`, hence `Option`. -/
structure ReceiverSettings where
  addresses : Option String
  «to» : Option String
  recipient : Option String
  channel : Option String
  kafkaTopic : Option String
  url : Option String
deriving DecidableEq, Repr

/-- The value stored under `RECEIVER_META_KEY` (produced by `getNotifierMetadata`). -/
structure ReceiverMetadata where
  name : String
  description : Option String
deriving DecidableEq, Repr

/-- Modelled from the spec: plugin-provided receiver metadata
(`ReceiverPluginMetadata`, imported from `useReceiversMetadata`); the only field this
file consults is its optional `description`. -/
structure ReceiverPluginMetadata where
  description : Option String
deriving DecidableEq, Repr

/-- Modelled from the spec: `ReceiverTypes.OnCall`, the plugin-integration receiver
type tag imported from the OnCall module; its value is the string `"oncall"`. -/
def ReceiverTypes.OnCall : String := "oncall"

/-- `ReceiverConfigWithMetadata`: a receiver config (`type`, optional `settings`, and
its remaining fields `rest`, opaque here) with the three reserved metadata keys.
`status` stands for `RECEIVER_STATUS_KEY` (payload type `σ`, opaque to this file),
`meta` for `RECEIVER_META_KEY`, `pluginMeta` for `RECEIVER_PLUGIN_META_KEY`. -/
structure ReceiverConfigWithMetadata (β σ : Type) where
  type : String
  settings : Option ReceiverSettings
  rest : β
  status : Option σ
  meta : ReceiverMetadata
  pluginMeta : Option ReceiverPluginMetadata
deriving DecidableEq, Repr

/-- `replace(/^#/, '')`: strip at most one leading `#`. -/
def stripLeadingHash (s : String) : String :=
  match s.data with
  | '#' :: cs => String.mk cs
  | _ => s

/-- `getReceiverDescription` from the source.  JS `a || b` on two optional string
fields followed by a truthiness test is modelled explicitly with `truthy`. -/
def getReceiverDescription {β σ : Type} (receiver : ReceiverConfigWithMetadata β σ) :
    Option String :=
  match receiver.settings with
  | none => none
  | some settings =>
    if receiver.type == "email" then
      let addresses := if truthy settings.addresses then settings.addresses else settings.«to»
      if truthy addresses then some (summarizeEmailAddresses (addresses.getD "")) else none
    else if receiver.type == "slack" then
      let recipient := if truthy settings.recipient then settings.recipient else settings.channel
      if !(truthy recipient) then none
      else some ("#" ++ stripLeadingHash (recipient.getD ""))
    else if receiver.type == "kafka" then
      settings.kafkaTopic
    else if receiver.type == "webhook" then
      settings.url
    else if receiver.type == ReceiverTypes.OnCall then
      receiver.pluginMeta.bind (fun m => m.description)
    else
      receiver.meta.description

/-- Spec-side definition for the slack case: read the recipient from the primary field
or, failing that, the fallback channel field; if neither is available there is no
description; otherwise strip one leading `#` and put a single `#` back in front. -/
def specSlackDescription (settings : ReceiverSettings) : Option String :=
  let recipient :=
    if truthy settings.recipient then settings.recipient
    else if truthy settings.channel then settings.channel
    else none
  recipient.map (fun r => "#" ++ stripLeadingHash r)

/-- C7: for every slack receiver config with settings, `getReceiverDescription` reads
the recipient from `settings.recipient` or, if absent, `settings.channel`; with neither
available it returns no description, and otherwise it strips one leading `#` from the
recipient and re-attaches a single `#` (so both `"#general"` and `"general"` give
`"#general"`). -/
theorem getReceiverDescription_slack {β σ : Type} (receiver : ReceiverConfigWithMetadata β σ)
    (settings : ReceiverSettings) (htype : receiver.type = "slack")
    (hset : receiver.settings = some settings) :
    getReceiverDescription receiver = specSlackDescription settings := by
  unfold getReceiverDescription specSlackDescription
  rw [hset, htype]
  rcases hrec : settings.recipient with _ | r <;> rcases hch : settings.channel with _ | ch <;>
    simp [hrec, hch, truthy] <;> (try split_ifs) <;> simp_all

/-- The concrete slack settings used by the C7 witness. -/
def generalSlackSettings : ReceiverSettings :=
  { addresses := none, «to» := none, recipient := some "#general", channel := none,
    kafkaTopic := none, url := none }

/-- The concrete slack receiver used by the C7 witness. -/
def generalSlackReceiver : ReceiverConfigWithMetadata Unit Unit :=
  { type := "slack", settings := some generalSlackSettings, rest := (), status := none,
    meta := { name := "Slack", description := none }, pluginMeta := none }

/-- C7 witness: a concrete slack receiver with recipient `"#general"` is described as
`"#general"`. -/
theorem getReceiverDescription_slack_witness :
    generalSlackReceiver.type = "slack" ∧
      generalSlackReceiver.settings = some generalSlackSettings ∧
      getReceiverDescription generalSlackReceiver = some "#general" :=
  ⟨rfl, rfl, by
    rw [getReceiverDescription_slack generalSlackReceiver generalSlackSettings rfl rfl]
    rfl⟩

/-- Spec-side predicate for C8: "no description available" — the settings are absent,
or the field the receiver's type reads is not present (for the OnCall plugin type and
the default case the description is read from attached plugin/notifier metadata). -/
def noDescriptionAvailable {β σ : Type} (receiver : ReceiverConfigWithMetadata β σ) : Prop :=
  receiver.settings = none ∨
    ∃ settings, receiver.settings = some settings ∧
      ((receiver.type = "email" ∧ settings.addresses = none ∧ settings.«to» = none) ∨
        (receiver.type = "slack" ∧ settings.recipient = none ∧ settings.channel = none) ∨
        (receiver.type = "kafka" ∧ settings.kafkaTopic = none) ∨
        (receiver.type = "webhook" ∧ settings.url = none) ∨
        (receiver.type = ReceiverTypes.OnCall ∧
          receiver.pluginMeta.bind (fun m => m.description) = none) ∨
        (receiver.type ∉ ["email", "slack", "kafka", "webhook", ReceiverTypes.OnCall] ∧
          receiver.meta.description = none))

/-- C8: whenever no description is available (absent settings, or the relevant field
not present), `getReceiverDescription` returns the absent value `none`, never an empty
string standing in for absence. -/
theorem getReceiverDescription_no_description {β σ : Type}
    (receiver : ReceiverConfigWithMetadata β σ) (h : noDescriptionAvailable receiver) :
    getReceiverDescription receiver = none := by
  unfold getReceiverDescription
  rcases h with h | ⟨settings, hset, hcase⟩
  · rw [h]
  · rw [hset]
    rcases hcase with ⟨ht, h1, h2⟩ | ⟨ht, h1, h2⟩ | ⟨ht, h1⟩ | ⟨ht, h1⟩ | ⟨ht, h1⟩ | ⟨ht, h1⟩
    · simp [ht, h1, h2, truthy]
    · simp [ht, h1, h2, truthy]
    · simp [ht, h1]
    · simp [ht, h1]
    · simp [ht, ReceiverTypes.OnCall, h1]
    · simp only [List.mem_cons, List.not_mem_nil, not_or, or_false] at ht
      obtain ⟨ht1, ht2, ht3, ht4, ht5⟩ := ht
      simp [ht1, ht2, ht3, ht4, ht5, h1]

/-- The concrete receiver (absent settings) used by the C8 witness. -/
def noSettingsReceiver : ReceiverConfigWithMetadata Unit Unit :=
  { type := "webhook", settings := none, rest := (), status := none,
    meta := { name := "Webhook", description := none }, pluginMeta := none }

/-- C8 witness: a concrete receiver with absent settings yields `none`. -/
theorem getReceiverDescription_no_description_witness :
    noDescriptionAvailable noSettingsReceiver ∧
      getReceiverDescription noSettingsReceiver = none :=
  ⟨Or.inl rfl, getReceiverDescription_no_description noSettingsReceiver (Or.inl rfl)⟩

/-- C9: when the settings field is absent, `getReceiverDescription` returns no
description regardless of the receiver's type — including the OnCall plugin type and
the default case — and the attached notifier/plugin metadata (universally quantified
here) is never consulted. -/
theorem getReceiverDescription_settings_absent {β σ : Type} (t : String) (b : β)
    (st : Option σ) (m : ReceiverMetadata) (pm : Option ReceiverPluginMetadata) :
    getReceiverDescription
        { type := t, settings := none, rest := b, status := st, meta := m,
          pluginMeta := pm } = none := rfl

/-- Notifier type descriptor (`NotifierDTO`): catalog entry for a known integration
type; only the fields this file reads. -/
structure NotifierDTO where
  name : String
  type : String
  description : String
deriving DecidableEq, Repr

/-- lodash `upperFirst`: convert the first character of a string to upper case. -/
def upperFirst (s : String) : String :=
  match s.data with
  | [] => s
  | c :: cs => String.mk (c.toUpper :: cs)

/-- A receiver config before enrichment (`GrafanaManagedReceiverConfig`): its `type`,
optional `settings`, and all remaining fields, opaque here (`rest : β`). -/
structure GrafanaManagedReceiverConfig (β : Type) where
  type : String
  settings : Option ReceiverSettings
  rest : β
deriving DecidableEq, Repr

/-- `getNotifierMetadata` from the source: the first catalog entry whose `type` matches
the receiver's `type`; its name (or the capitalized type string as fallback) and its
description (or absent when no entry matches). -/
def getNotifierMetadata {β : Type} (notifiers : List NotifierDTO)
    (receiver : GrafanaManagedReceiverConfig β) : ReceiverMetadata :=
  match notifiers.find? (fun notifier => notifier.type == receiver.type) with
  | some m => { name := m.name, description := some m.description }
  | none => { name := upperFirst receiver.type, description := none }

/-- A contact point (`Receiver` in the alertmanager types): a `name`, an optional
`id`, and all remaining fields, opaque here (`rest : α`). -/
structure Receiver (α : Type) where
  name : String
  id : Option String
  rest : α
deriving DecidableEq, Repr

/-- A delivery-status entry (`ReceiversStateDTO`): a contact-point name and the
per-integration status array, whose entries (`σ`) are opaque to this file. -/
structure ReceiversStateDTO (σ : Type) where
  name : String
  integrations : List σ
deriving DecidableEq, Repr

/-- An enriched contact point (`ContactPointWithMetadata`): the original fields
(`name`, `rest`), the stable `id`, the optional `policies` list, and the enriched
receiver configs. -/
structure ContactPointWithMetadata (α β σ : Type) where
  name : String
  id : String
  policies : Option (List RouteReference)
  grafana_managed_receiver_configs : List (ReceiverConfigWithMetadata β σ)
  rest : α
deriving DecidableEq, Repr

/-- The `alertmanager_config` member of an `AlertManagerCortexConfig`: only its
optional `route` is read here. -/
structure AlertmanagerConfig where
  route : Option Route

/-- `AlertManagerCortexConfig`: carries the alertmanager config with the policy tree. -/
structure AlertManagerCortexConfig where
  alertmanager_config : AlertmanagerConfig

/-- The body of the `contactPoints.map(...)` in `enhanceContactPointsWithMetadata`:
enrich one contact point.  lodash `groupBy(usedContactPoints, 'receiver')` preserves
element order inside each group and omits empty groups, so
`usedContactPointsByName[contactPoint.name] ?? []` is exactly an order-preserving
filter of the collector output by receiver name, and the surrounding
`alertmanagerConfiguration && ...` makes the whole `policies` value absent when no
configuration was supplied. -/
def enhanceContactPoint {α β σ δ : Type}
    (extractReceivers : Receiver α → List (GrafanaManagedReceiverConfig β))
    (getOnCallMetadata :
      Option (List δ) → GrafanaManagedReceiverConfig β → Bool → ReceiverPluginMetadata)
    (status : List (ReceiversStateDTO σ)) (notifiers : List NotifierDTO)
    (onCallIntegrations : Option (List δ))
    (alertmanagerConfiguration : Option AlertManagerCortexConfig)
    (usedContactPoints : List RouteReference) (contactPoint : Receiver α) :
    ContactPointWithMetadata α β σ :=
  let receivers := extractReceivers contactPoint
  let statusForReceiver := status.find? (fun st => st.name == contactPoint.name)
  let id := if truthy contactPoint.id then contactPoint.id.getD "" else contactPoint.name
  { name := contactPoint.name
    id := id
    policies :=
      match alertmanagerConfiguration with
      | none => none
      | some _ =>
        some (usedContactPoints.filter (fun ref => ref.receiver == contactPoint.name))
    grafana_managed_receiver_configs := receivers.enum.map (fun p =>
      { type := p.2.type
        settings := p.2.settings
        rest := p.2.rest
        status := statusForReceiver.bind (fun st => st.integrations.get? p.1)
        meta := getNotifierMetadata notifiers p.2
        pluginMeta :=
          if p.2.type == ReceiverTypes.OnCall then
            some (getOnCallMetadata onCallIntegrations p.2 alertmanagerConfiguration.isSome)
          else none })
    rest := contactPoint.rest }

/-- `enhanceContactPointsWithMetadata` from the source.  The imported collaborators
(`computeInheritedTree`, `extractReceivers`, `getOnCallMetadata`) and the locale
comparator behind `a.name.localeCompare(b.name)` are parameters, so every theorem
holds for all of them; `status` and `notifiers` default to `[]` when absent, as in the
destructuring defaults of the source.  `Array.prototype.sort` with a consistent
comparator is the stable sort by that comparator, modelled by stable insertion sort
with the relation `localeCompare a.name b.name ≤ 0`. -/
def enhanceContactPointsWithMetadata {α β σ δ : Type} (flag : Bool)
    (computeInheritedTree : Route → Route)
    (extractReceivers : Receiver α → List (GrafanaManagedReceiverConfig β))
    (getOnCallMetadata :
      Option (List δ) → GrafanaManagedReceiverConfig β → Bool → ReceiverPluginMetadata)
    (localeCompare : String → String → Int)
    (status : Option (List (ReceiversStateDTO σ))) (notifiers : Option (List NotifierDTO))
    (onCallIntegrations : Option (List δ)) (contactPoints : List (Receiver α))
    (alertmanagerConfiguration : Option AlertManagerCortexConfig) :
    List (ContactPointWithMetadata α β σ) :=
  let fullyInheritedTree := computeInheritedTree
    ((alertmanagerConfiguration.bind (fun c => c.alertmanager_config.route)).getD emptyRoute)
  let usedContactPoints := getUsedContactPoints flag fullyInheritedTree
  let enhanced := contactPoints.map
    (enhanceContactPoint extractReceivers getOnCallMetadata (status.getD [])
      (notifiers.getD []) onCallIntegrations alertmanagerConfiguration usedContactPoints)
  enhanced.insertionSort (fun a b => localeCompare a.name b.name ≤ 0)

section Enhance

variable {α β σ δ : Type} (flag : Bool) (computeInheritedTree : Route → Route)
  (extractReceivers : Receiver α → List (GrafanaManagedReceiverConfig β))
  (getOnCallMetadata :
    Option (List δ) → GrafanaManagedReceiverConfig β → Bool → ReceiverPluginMetadata)
  (localeCompare : String → String → Int)
  (status : Option (List (ReceiversStateDTO σ))) (notifiers : Option (List NotifierDTO))
  (onCallIntegrations : Option (List δ)) (contactPoints : List (Receiver α))
  (alertmanagerConfiguration : Option AlertManagerCortexConfig)

/-- C5: for every contact-point list and every combination of present/absent optional
arguments (and all external collaborators), the enriched list has exactly the length of
the input list: no contact point is dropped or merged. -/
theorem enhanceContactPointsWithMetadata_length :
    (enhanceContactPointsWithMetadata flag computeInheritedTree extractReceivers
        getOnCallMetadata localeCompare status notifiers onCallIntegrations contactPoints
        alertmanagerConfiguration).length = contactPoints.length := by
  unfold enhanceContactPointsWithMetadata
  simp [List.length_insertionSort]

/-- C2: the `policies` field of every enriched contact point is absent when
`alertmanagerConfiguration` is omitted, and otherwise is exactly the (possibly empty)
list of route references produced by the usage collector whose receiver equals the
contact point's name, in collector order. -/
theorem enhanceContactPointsWithMetadata_policies (e : ContactPointWithMetadata α β σ)
    (he : e ∈ enhanceContactPointsWithMetadata flag computeInheritedTree extractReceivers
      getOnCallMetadata localeCompare status notifiers onCallIntegrations contactPoints
      alertmanagerConfiguration) :
    e.policies =
      match alertmanagerConfiguration with
      | none => none
      | some _ =>
        some ((getUsedContactPoints flag (computeInheritedTree
            ((alertmanagerConfiguration.bind (fun c => c.alertmanager_config.route)).getD
              emptyRoute))).filter (fun ref => ref.receiver == e.name)) := by
  unfold enhanceContactPointsWithMetadata at he
  simp only [List.mem_insertionSort, List.mem_map] at he
  obtain ⟨cp, hcp, rfl⟩ := he
  cases alertmanagerConfiguration <;> simp [enhanceContactPoint]

end Enhance

/-- A contact point with only a name, used by concrete witnesses. -/
def cpUnit (nm : String) : Receiver Unit := { name := nm, id := none, rest := () }

/-- Trivial receiver extractor used by concrete witnesses. -/
def trivialExtract : Receiver Unit → List (GrafanaManagedReceiverConfig Unit) :=
  fun _ => []

/-- Trivial OnCall metadata resolver used by concrete witnesses. -/
def trivialOnCall :
    Option (List Unit) → GrafanaManagedReceiverConfig Unit → Bool → ReceiverPluginMetadata :=
  fun _ _ _ => { description := none }

/-- The enriched contact point produced from `cpUnit "cp"` with no optional data. -/
def enhancedCpUnit : ContactPointWithMetadata Unit Unit Unit :=
  { name := "cp", id := "cp", policies := none, grafana_managed_receiver_configs := [],
    rest := () }

/-- C2 witness: with `alertmanagerConfiguration` omitted, the concrete enriched contact
point has an absent `policies` field. -/
theorem enhanceContactPointsWithMetadata_policies_witness :
    (enhancedCpUnit ∈ enhanceContactPointsWithMetadata false id trivialExtract trivialOnCall
        (fun _ _ => 0) none none none [cpUnit "cp"] none) ∧
      enhancedCpUnit.policies = none := by
  have hmem : enhancedCpUnit ∈ enhanceContactPointsWithMetadata false id trivialExtract
      trivialOnCall (fun _ _ => 0) none none none [cpUnit "cp"] none := by
    simp [enhanceContactPointsWithMetadata, enhanceContactPoint, List.insertionSort,
      List.orderedInsert, enhancedCpUnit, cpUnit, trivialExtract, truthy]
  exact ⟨hmem,
    enhanceContactPointsWithMetadata_policies _ _ _ _ _ _ _ _ _ _ enhancedCpUnit hmem⟩

/-- Inserting an element on which the (boolean) predicate fails does not change the
filtered list. -/
theorem filter_orderedInsert_neg {γ : Type} (r : γ → γ → Prop) [DecidableRel r]
    (p : γ → Bool) (a : γ) (l : List γ) (ha : p a = false) :
    (l.orderedInsert r a).filter p = l.filter p := by
  induction l with
  | nil => simp [List.orderedInsert, ha]
  | cons b l ih =>
    simp only [List.orderedInsert]
    split
    · simp [List.filter_cons, ha]
    · simp [List.filter_cons, ih]

/-- Inserting an element on which the predicate holds, and which is `r`-below every
element of the list satisfying the predicate, prepends it to the filtered list. -/
theorem filter_orderedInsert_pos {γ : Type} (r : γ → γ → Prop) [DecidableRel r]
    (p : γ → Bool) (a : γ) (l : List γ) (ha : p a = true)
    (hr : ∀ b ∈ l, p b = true → r a b) :
    (l.orderedInsert r a).filter p = a :: l.filter p := by
  induction l with
  | nil => simp [List.orderedInsert, ha]
  | cons b l ih =>
    simp only [List.orderedInsert]
    split
    · next h => simp [List.filter_cons, ha]
    · next h =>
      have hb : p b = false := by
        cases hpb : p b
        · rfl
        · exact absurd (hr b (by simp) hpb) h
      simp only [List.filter_cons, hb, Bool.false_eq_true, if_false]
      exact ih (fun x hx hpx => hr x (by simp [hx]) hpx)

/-- Stability of insertion sort on a class of mutually `r`-equivalent elements: the
elements satisfying `p` keep their relative input order. -/
theorem filter_insertionSort_eq {γ : Type} (r : γ → γ → Prop) [DecidableRel r]
    (p : γ → Bool) (hp : ∀ a b, p a = true → p b = true → r a b) (l : List γ) :
    (l.insertionSort r).filter p = l.filter p := by
  induction l with
  | nil => rfl
  | cons a l ih =>
    simp only [List.insertionSort]
    cases hpa : p a
    · rw [filter_orderedInsert_neg r p a _ hpa, ih, List.filter_cons]
      simp [hpa]
    · rw [filter_orderedInsert_pos r p a _ hpa
        (fun b hb hpb => hp a b hpa hpb), ih, List.filter_cons]
      simp [hpa]

section EnhanceOrder

variable {α β σ δ : Type} (flag : Bool) (computeInheritedTree : Route → Route)
  (extractReceivers : Receiver α → List (GrafanaManagedReceiverConfig β))
  (getOnCallMetadata :
    Option (List δ) → GrafanaManagedReceiverConfig β → Bool → ReceiverPluginMetadata)
  (localeCompare : String → String → Int)
  (status : Option (List (ReceiversStateDTO σ))) (notifiers : Option (List NotifierDTO))
  (onCallIntegrations : Option (List δ)) (contactPoints : List (Receiver α))
  (alertmanagerConfiguration : Option AlertManagerCortexConfig)

/-- C6: for every consistent comparator (reflexively non-positive, transitive, total —
as `String.prototype.localeCompare` is for any locale), the enriched list is sorted by
contact-point name ascending under that comparator regardless of input order, and the
sort is stable: for each name, the enriched contact points carrying that name appear in
the same relative order as in the (order-preserving) enrichment of the input list. -/
theorem enhanceContactPointsWithMetadata_sorted
    (href : ∀ s, localeCompare s s ≤ 0)
    (htrans : ∀ a b c : String,
      localeCompare a b ≤ 0 → localeCompare b c ≤ 0 → localeCompare a c ≤ 0)
    (htotal : ∀ a b : String, localeCompare a b ≤ 0 ∨ localeCompare b a ≤ 0) :
    (enhanceContactPointsWithMetadata flag computeInheritedTree extractReceivers
        getOnCallMetadata localeCompare status notifiers onCallIntegrations contactPoints
        alertmanagerConfiguration).Sorted
        (fun a b => localeCompare a.name b.name ≤ 0) ∧
      ∀ n : String,
        (enhanceContactPointsWithMetadata flag computeInheritedTree extractReceivers
            getOnCallMetadata localeCompare status notifiers onCallIntegrations contactPoints
            alertmanagerConfiguration).filter (fun cp => cp.name == n) =
          (contactPoints.map (enhanceContactPoint extractReceivers getOnCallMetadata
            (status.getD []) (notifiers.getD []) onCallIntegrations alertmanagerConfiguration
            (getUsedContactPoints flag (computeInheritedTree
              ((alertmanagerConfiguration.bind (fun c => c.alertmanager_config.route)).getD
                emptyRoute))))).filter (fun cp => cp.name == n) := by
  constructor
  · haveI : IsTrans (ContactPointWithMetadata α β σ)
        (fun a b => localeCompare a.name b.name ≤ 0) :=
      ⟨fun a b c hab hbc => htrans a.name b.name c.name hab hbc⟩
    haveI : IsTotal (ContactPointWithMetadata α β σ)
        (fun a b => localeCompare a.name b.name ≤ 0) :=
      ⟨fun a b => htotal a.name b.name⟩
    unfold enhanceContactPointsWithMetadata
    exact List.sorted_insertionSort _ _
  · intro n
    unfold enhanceContactPointsWithMetadata
    exact filter_insertionSort_eq _ _
      (fun a b hpa hpb => by
        have ha : a.name = n := eq_of_beq hpa
        have hb : b.name = n := eq_of_beq hpb
        rw [ha, hb]
        exact href n) _

end EnhanceOrder

/-- The length-difference comparator used by the C6 witness. -/
def lenCompare (a b : String) : Int := (a.length : Int) - b.length

/-- C6 witness: a concrete two-element input, sorted with a concrete consistent
comparator; the filter at name `"Zeta"` agrees with the unsorted enrichment. -/
theorem enhanceContactPointsWithMetadata_sorted_witness :
    (enhanceContactPointsWithMetadata false id trivialExtract trivialOnCall lenCompare
        (none : Option (List (ReceiversStateDTO Unit))) none none
        [cpUnit "Zeta", cpUnit "alpha"] none).Sorted
        (fun a b => lenCompare a.name b.name ≤ 0) ∧
      (enhanceContactPointsWithMetadata false id trivialExtract trivialOnCall lenCompare
          (none : Option (List (ReceiversStateDTO Unit))) none none
          [cpUnit "Zeta", cpUnit "alpha"] none).filter
          (fun cp => cp.name == "Zeta") =
        ([cpUnit "Zeta", cpUnit "alpha"].map (enhanceContactPoint trivialExtract trivialOnCall
          ([] : List (ReceiversStateDTO Unit)) [] none none
          (getUsedContactPoints false emptyRoute))).filter
          (fun cp => cp.name == "Zeta") := by
  have h := enhanceContactPointsWithMetadata_sorted false id trivialExtract trivialOnCall
    lenCompare (none : Option (List (ReceiversStateDTO Unit))) none none
    [cpUnit "Zeta", cpUnit "alpha"] none
    (fun s => by simp [lenCompare])
    (fun a b c h1 h2 => by simp only [lenCompare] at h1 h2 ⊢; omega)
    (fun a b => by simp only [lenCompare]; omega)
  exact ⟨h.1, h.2 "Zeta"⟩

section EnhanceFrame

variable {α β σ δ : Type} (flag : Bool) (computeInheritedTree : Route → Route)
  (extractReceivers : Receiver α → List (GrafanaManagedReceiverConfig β))
  (getOnCallMetadata :
    Option (List δ) → GrafanaManagedReceiverConfig β → Bool → ReceiverPluginMetadata)
  (localeCompare : String → String → Int)
  (status : Option (List (ReceiversStateDTO σ))) (notifiers : Option (List NotifierDTO))
  (onCallIntegrations : Option (List δ)) (contactPoints : List (Receiver α))
  (alertmanagerConfiguration : Option AlertManagerCortexConfig)

/-- C10: every enriched contact point comes from an input contact point whose fields
other than the three the function sets (`id`, `policies`, and the receiver-config
list) are carried over unchanged (`name` and the opaque remainder `rest`); and each
enriched receiver config carries over the fields of the corresponding extracted
receiver config unchanged (`type`, `settings`, opaque remainder `rest`), only adding
the three reserved metadata keys. -/
theorem enhanceContactPointsWithMetadata_frame (e : ContactPointWithMetadata α β σ)
    (he : e ∈ enhanceContactPointsWithMetadata flag computeInheritedTree extractReceivers
      getOnCallMetadata localeCompare status notifiers onCallIntegrations contactPoints
      alertmanagerConfiguration) :
    ∃ cp ∈ contactPoints, e.name = cp.name ∧ e.rest = cp.rest ∧
      e.grafana_managed_receiver_configs.length = (extractReceivers cp).length ∧
      ∀ (i : Nat) (h1 : i < e.grafana_managed_receiver_configs.length)
        (h2 : i < (extractReceivers cp).length),
        (e.grafana_managed_receiver_configs.get ⟨i, h1⟩).type =
            ((extractReceivers cp).get ⟨i, h2⟩).type ∧
          (e.grafana_managed_receiver_configs.get ⟨i, h1⟩).settings =
            ((extractReceivers cp).get ⟨i, h2⟩).settings ∧
          (e.grafana_managed_receiver_configs.get ⟨i, h1⟩).rest =
            ((extractReceivers cp).get ⟨i, h2⟩).rest := by
  unfold enhanceContactPointsWithMetadata at he
  simp only [List.mem_insertionSort, List.mem_map] at he
  obtain ⟨cp, hcp, rfl⟩ := he
  refine ⟨cp, hcp, rfl, rfl, ?_, ?_⟩
  · simp [enhanceContactPoint]
  · intro i h1 h2
    simp [enhanceContactPoint, List.get_eq_getElem]

end EnhanceFrame

/-- A one-element receiver-config list extractor used by the C10 witness. -/
def oneEmailExtract : Receiver Unit → List (GrafanaManagedReceiverConfig Unit) :=
  fun _ => [{ type := "email", settings := none, rest := () }]

/-- The enriched receiver config inside `enhancedEmailCp`. -/
def enhancedEmailConfig : ReceiverConfigWithMetadata Unit Unit :=
  { type := "email", settings := none, rest := (), status := none,
    meta := { name := "Email", description := none }, pluginMeta := none }

/-- The enriched contact point produced from `cpUnit "cp"` under `oneEmailExtract`. -/
def enhancedEmailCp : ContactPointWithMetadata Unit Unit Unit :=
  { name := "cp", id := "cp", policies := none,
    grafana_managed_receiver_configs := [enhancedEmailConfig], rest := () }

/-- C10 witness: a concrete input contact point with one receiver config; the enriched
output carries `name`, `rest`, and the receiver config's fields over unchanged. -/
theorem enhanceContactPointsWithMetadata_frame_witness :
    (enhancedEmailCp ∈ enhanceContactPointsWithMetadata false id oneEmailExtract trivialOnCall
        (fun _ _ => 0) none none none [cpUnit "cp"] none) ∧
      ∃ cp ∈ [cpUnit "cp"], enhancedEmailCp.name = cp.name ∧ enhancedEmailCp.rest = cp.rest ∧
        enhancedEmailCp.grafana_managed_receiver_configs.length =
          (oneEmailExtract cp).length ∧
        ∀ (i : Nat) (h1 : i < enhancedEmailCp.grafana_managed_receiver_configs.length)
          (h2 : i < (oneEmailExtract cp).length),
          (enhancedEmailCp.grafana_managed_receiver_configs.get ⟨i, h1⟩).type =
              ((oneEmailExtract cp).get ⟨i, h2⟩).type ∧
            (enhancedEmailCp.grafana_managed_receiver_configs.get ⟨i, h1⟩).settings =
              ((oneEmailExtract cp).get ⟨i, h2⟩).settings ∧
            (enhancedEmailCp.grafana_managed_receiver_configs.get ⟨i, h1⟩).rest =
              ((oneEmailExtract cp).get ⟨i, h2⟩).rest := by
  have hmem : enhancedEmailCp ∈ enhanceContactPointsWithMetadata false id oneEmailExtract
      trivialOnCall (fun _ _ => 0) none none none [cpUnit "cp"] none := by
    simp [enhanceContactPointsWithMetadata, enhanceContactPoint, List.insertionSort,
      List.orderedInsert, enhancedEmailCp, enhancedEmailConfig, cpUnit, oneEmailExtract,
      trivialOnCall, truthy, getNotifierMetadata, upperFirst, ReceiverTypes.OnCall, List.enum]
  exact ⟨hmem,
    enhanceContactPointsWithMetadata_frame _ _ _ _ _ _ _ _ _ _ enhancedEmailCp hmem⟩
